import Mathlib

/-!
# The `install` command of elastic-package (`cmd/install.go`)

A shallow embedding of `installCommandAction`.  The function is glue code: it
reads four command-line flags, creates a Kibana client, resolves the package
source, constructs an installer and then either checks conditions or installs.
Everything it calls lives in other packages, so the collaborators are the
fields of an environment `Env`, and the function is a pure map from an
environment to the log of the calls it made together with its outcome.

Go conventions kept by the embedding:
* `error` is an interface value: `nil` or an error (`Option GoError`);
* a function declared `(T, error)` returns both values (`T × error`), and the
  caller decides which one it looks at;
* a pointer or interface value may be `nil` (`Option`); dereferencing a nil
  pointer or calling a method on a nil interface panics.
-/

namespace Cmd

/-- A non-nil Go error value.  `fundamental` is what `errors.New` builds,
`withMessage` what `errors.Wrap` builds (github.com/pkg/errors); `external`
stands for any error built elsewhere. -/
inductive GoError where
  | external (description : String)
  | fundamental (message : String)
  | withMessage (cause : GoError) (message : String)
  deriving DecidableEq, Repr

/-- Go's `error` interface: `none` is `nil`. -/
abbrev error := Option GoError

namespace errors

/-- Go `errors.New(message)` of github.com/pkg/errors: never nil. -/
def New (message : String) : error :=
  some (GoError.fundamental message)

/-- Go `errors.Wrap(err, message)` of github.com/pkg/errors: nil when `err`
is nil, otherwise an error that annotates `err` with `message`. -/
def Wrap (err : error) (message : String) : error :=
  match err with
  | none => none
  | some cause => some (GoError.withMessage cause message)

end errors

/-- Modelled from the spec: `packages.PackageManifest`, whose declaration is
outside `cmd/install.go`.  The spec's Manifest has a name, a version and a
mapping from condition key to range constraint. -/
structure PackageManifest where
  Name : String
  Version : String
  Conditions : List (String × String)
  deriving DecidableEq, Repr

/-- Modelled from the spec: `installer.InstalledPackage`, whose declaration is
outside `cmd/install.go`.  The spec's InstallResult carries the Manifest that
was installed. -/
structure InstalledPackage where
  Manifest : PackageManifest
  deriving DecidableEq, Repr

/-- A `*kibana.Client` that is not nil; the function only passes it on. -/
structure KibanaClient where
  handle : Nat
  deriving DecidableEq, Repr

/-- The literal `installer.Options{...}` built at lines 67-72, with the four
fields the function sets, in the order it sets them. -/
structure Options where
  Kibana : Option KibanaClient
  RootPath : String
  SkipValidation : Bool
  ZipPath : String
  deriving DecidableEq, Repr

/-- A non-nil `installer.Installer` interface value, given by what its two
methods return.  Every path of `installCommandAction` calls at most one of
them, at most once. -/
structure Installer where
  Manifest : Option PackageManifest × error
  Install : Option InstalledPackage × error
  deriving DecidableEq, Repr

/-- Everything `installCommandAction` reads from outside: the `cobraext`
constants and helper, the parsed flags of `cmd`, and the functions of the
packages `kibana`, `packages` and `installer`. -/
structure Env where
  CheckConditionFlagName : String
  PackageRootFlagName : String
  ZipPackageFilePathFlagName : String
  BuildSkipValidationFlagName : String
  FlagParsingError : error → String → error
  GetString : String → String × error
  GetBool : String → Bool × error
  GetStringSlice : String → List String × error
  NewClient : Option KibanaClient × error
  FindPackageRoot : String × Bool × error
  NewForPackage : Options → Option Installer × error
  CheckConditions : PackageManifest → List String → error

/-- One entry of the call log: a call to a collaborator, with its arguments
and with what it returned. -/
inductive Event where
  | GetString (name : String) (ret : String × error)
  | GetBool (name : String) (ret : Bool × error)
  | NewClient (ret : Option KibanaClient × error)
  | FindPackageRoot (ret : String × Bool × error)
  | NewForPackage (options : Options) (ret : Option Installer × error)
  | GetStringSlice (name : String) (ret : List String × error)
  | Manifest (ret : Option PackageManifest × error)
  | Println (line : String)
  | CheckConditions (manifest : PackageManifest) (keyValuePairs : List String) (ret : error)
  | Install (ret : Option InstalledPackage × error)
  deriving DecidableEq, Repr

/-- How a call of `installCommandAction` ends: it returns its `error` result,
or the Go runtime panics on a nil dereference. -/
inductive Outcome where
  | returned (err : error)
  | panicked
  deriving DecidableEq, Repr

/-- The call log of one invocation and its outcome. -/
structure Result where
  trace : List Event
  outcome : Outcome
  deriving DecidableEq, Repr

/-- Lines 67-100 of `installCommandAction`: what the function does once
`packageRootPath` is settled, either by the flag or by discovery.  `t` is the
call log so far. -/
def constructAndRun (env : Env) (kibanaClient : Option KibanaClient)
    (packageRootPath : String) (skipValidation : Bool) (zipPathFile : String)
    (t : List Event) : Result :=
  let options : Options :=
    Options.mk kibanaClient packageRootPath skipValidation zipPathFile
  let built := env.NewForPackage options
  let t := t ++ [Event.NewForPackage options built]
  match built with
  | (_, some err) =>
    ⟨t, .returned (errors.Wrap (some err) "package installation failed")⟩
  | (installer, none) =>
  let conditionFlag := env.GetStringSlice env.CheckConditionFlagName
  let t := t ++ [Event.GetStringSlice env.CheckConditionFlagName conditionFlag]
  match conditionFlag with
  | (_, some err) =>
    ⟨t, .returned (errors.Wrap (some err) "can't process check-condition flag")⟩
  | (keyValuePairs, none) =>
  -- both branches below start with a method call on `installer`
  match installer with
  | none => ⟨t, .panicked⟩
  | some installer =>
  if keyValuePairs.length > 0 then
    let loaded := installer.Manifest
    let t := t ++ [Event.Manifest loaded]
    match loaded with
    | (_, some err) => ⟨t, .returned (some err)⟩
    | (none, none) =>
      -- line 88 prints, line 89 dereferences the nil manifest
      ⟨t ++ [Event.Println "Check conditions for package"], .panicked⟩
    | (some manifest, none) =>
    let t := t ++ [Event.Println "Check conditions for package"]
    let checked := env.CheckConditions manifest keyValuePairs
    let t := t ++ [Event.CheckConditions manifest keyValuePairs checked]
    match checked with
    | some err =>
      ⟨t, .returned (errors.Wrap (some err) "checking conditions failed")⟩
    | none =>
    let t := t ++ [Event.Println "Requirements satisfied - the package can be installed."]
    let t := t ++ [Event.Println "Done"]
    ⟨t, .returned none⟩
  else
    let installed := installer.Install
    let t := t ++ [Event.Install installed]
    ⟨t, .returned installed.2⟩

/-- Go `installCommandAction(cmd, _)`, lines 36-100 of `cmd/install.go`. -/
def installCommandAction (env : Env) : Result :=
  let zipFlag := env.GetString env.ZipPackageFilePathFlagName
  let t := [Event.GetString env.ZipPackageFilePathFlagName zipFlag]
  match zipFlag with
  | (_, some err) =>
    ⟨t, .returned (env.FlagParsingError (some err) env.ZipPackageFilePathFlagName)⟩
  | (zipPathFile, none) =>
  let rootFlag := env.GetString env.PackageRootFlagName
  let t := t ++ [Event.GetString env.PackageRootFlagName rootFlag]
  match rootFlag with
  | (_, some err) =>
    ⟨t, .returned (env.FlagParsingError (some err) env.PackageRootFlagName)⟩
  | (packageRootPath, none) =>
  let skipFlag := env.GetBool env.BuildSkipValidationFlagName
  let t := t ++ [Event.GetBool env.BuildSkipValidationFlagName skipFlag]
  match skipFlag with
  | (_, some err) =>
    ⟨t, .returned (env.FlagParsingError (some err) env.BuildSkipValidationFlagName)⟩
  | (skipValidation, none) =>
  let client := env.NewClient
  let t := t ++ [Event.NewClient client]
  match client with
  | (_, some err) =>
    ⟨t, .returned (errors.Wrap (some err) "could not create kibana client")⟩
  | (kibanaClient, none) =>
  if zipPathFile = "" ∧ packageRootPath = "" then
    let root := env.FindPackageRoot
    let t := t ++ [Event.FindPackageRoot root]
    match root with
    | (_, false, _) =>
      ⟨t, .returned (errors.New "package root not found")⟩
    | (_, true, some err) =>
      ⟨t, .returned (errors.Wrap (some err) "locating package root failed")⟩
    | (discovered, true, none) =>
      constructAndRun env kibanaClient discovered skipValidation zipPathFile t
  else
    constructAndRun env kibanaClient packageRootPath skipValidation zipPathFile t


/-! ## Vocabulary for the call log -/

/-- The entry is a call of `installer.Install`. -/
def Event.isInstall : Event → Bool
  | .Install _ => true
  | _ => false

/-- The entry is a call of `installer.Manifest`. -/
def Event.isManifest : Event → Bool
  | .Manifest _ => true
  | _ => false

/-- The entry is a call of `packages.CheckConditions`. -/
def Event.isCheckConditions : Event → Bool
  | .CheckConditions _ _ _ => true
  | _ => false

/-- The entry is a call of `installer.NewForPackage`. -/
def Event.isNewForPackage : Event → Bool
  | .NewForPackage _ _ => true
  | _ => false

/-- The entry is a call of `packages.FindPackageRoot`. -/
def Event.isFindPackageRoot : Event → Bool
  | .FindPackageRoot _ => true
  | _ => false

/-- The step behind the entry reported a failure: a non-nil error, or for
package-root discovery also `found = false`.  Printing cannot fail. -/
def Event.failed : Event → Bool
  | .GetString _ (_, err) => err.isSome
  | .GetBool _ (_, err) => err.isSome
  | .NewClient (_, err) => err.isSome
  | .FindPackageRoot (_, found, err) => !found || err.isSome
  | .NewForPackage _ (_, err) => err.isSome
  | .GetStringSlice _ (_, err) => err.isSome
  | .Manifest (_, err) => err.isSome
  | .Println _ => false
  | .CheckConditions _ _ err => err.isSome
  | .Install (_, err) => err.isSome

/-- The line an entry prints, if it is a `cmd.Println`. -/
def Event.printed : Event → Option String
  | .Println line => some line
  | _ => none

/-- What the caller of `installCommandAction` gets to see: the lines printed
on `cmd` and the outcome. -/
def Result.reported (r : Result) : List String × Outcome :=
  (r.trace.filterMap Event.printed, r.outcome)

/-- Every step of lines 37-81 succeeds: the three flags are read, the Kibana
client is created, the package root is given by a flag or discovered, the
installer is constructed (not nil) and the check-condition flag is read as
`keyValuePairs`. -/
def StepsSucceed (env : Env) (installer : Installer) (keyValuePairs : List String) : Prop :=
  ∃ (zipPathFile explicitRoot : String) (skipValidation : Bool)
    (kibanaClient : Option KibanaClient) (packageRootPath : String),
    env.GetString env.ZipPackageFilePathFlagName = (zipPathFile, none) ∧
    env.GetString env.PackageRootFlagName = (explicitRoot, none) ∧
    env.GetBool env.BuildSkipValidationFlagName = (skipValidation, none) ∧
    env.NewClient = (kibanaClient, none) ∧
    (if zipPathFile = "" ∧ explicitRoot = "" then
      env.FindPackageRoot = (packageRootPath, true, none)
    else packageRootPath = explicitRoot) ∧
    env.NewForPackage (Options.mk kibanaClient packageRootPath skipValidation zipPathFile)
      = (some installer, none) ∧
    env.GetStringSlice env.CheckConditionFlagName = (keyValuePairs, none)

/-- The call behind a log entry: which collaborator, with which arguments,
leaving out what it returned and the `SkipValidation` field of the options. -/
inductive Call where
  | GetString (name : String)
  | GetBool (name : String)
  | NewClient
  | FindPackageRoot
  | NewForPackage (kibana : Option KibanaClient) (rootPath zipPath : String)
  | GetStringSlice (name : String)
  | Manifest
  | Println (line : String)
  | CheckConditions (manifest : PackageManifest) (keyValuePairs : List String)
  | Install
  deriving DecidableEq, Repr

/-- The call of a log entry. -/
def Event.call : Event → Call
  | .GetString name _ => .GetString name
  | .GetBool name _ => .GetBool name
  | .NewClient _ => .NewClient
  | .FindPackageRoot _ => .FindPackageRoot
  | .NewForPackage options _ => .NewForPackage options.Kibana options.RootPath options.ZipPath
  | .GetStringSlice name _ => .GetStringSlice name
  | .Manifest _ => .Manifest
  | .Println line => .Println line
  | .CheckConditions manifest keyValuePairs _ => .CheckConditions manifest keyValuePairs
  | .Install _ => .Install

/-- The same environment with the skip-validation flag set to `value`. -/
def withSkipValidation (env : Env) (value : Bool) : Env :=
  { env with
    GetBool := fun name =>
      if name = env.BuildSkipValidationFlagName then (value, none) else env.GetBool name }

/-! ## Source resolution as the spec describes it -/

/-- Modelled from the spec: the InstallSource variant of the data model.  The
code has no such type: `cmd/install.go` hands both paths to
`installer.NewForPackage`. -/
inductive InstallSource where
  | Archive (path : String)
  | Directory (path : String)
  deriving DecidableEq, Repr

/-- Modelled from the spec: the failure of `SourceResolver.Resolve`. -/
inductive ResolveError where
  | SourceNotFound
  deriving DecidableEq, Repr

/-- Modelled from the spec: `SourceResolver.Resolve` of section 4.1.  The
choice between `Options.ZipPath` and `Options.RootPath` is made inside
`installer.NewForPackage`, which is not part of `cmd/install.go`.  A non-empty
archive wins, then a non-empty directory, then the first ancestor directory
that holds a manifest file. -/
def Resolve (ancestors : List String) (hasManifest : String → Bool)
    (explicitArchive explicitDirectory : String) : Except ResolveError InstallSource :=
  if explicitArchive ≠ "" then .ok (.Archive explicitArchive)
  else if explicitDirectory ≠ "" then .ok (.Directory explicitDirectory)
  else
    match ancestors.find? hasManifest with
    | some directory => .ok (.Directory directory)
    | none => .error .SourceNotFound

/-! ## Sample environments -/

/-- A manifest with one condition. -/
def sampleManifest : PackageManifest :=
  PackageManifest.mk "apache" "1.2.0" [("kibana.version", "^8.7.0")]

/-- A second manifest, to tell two installed packages apart. -/
def otherManifest : PackageManifest :=
  PackageManifest.mk "nginx" "0.9.1" []

/-- An installer whose manifest loads and whose install returns `installed`. -/
def sampleInstaller (installed : PackageManifest) : Installer :=
  Installer.mk (some sampleManifest, none) (some (InstalledPackage.mk installed), none)

/-- An environment in which every collaborator succeeds: the flags hold the
given paths and conditions, discovery finds `/work/apache`, the conditions are
satisfied. -/
def sampleEnv (zipPathFile packageRootPath : String) (conditions : List String) : Env where
  CheckConditionFlagName := "check-condition"
  PackageRootFlagName := "root"
  ZipPackageFilePathFlagName := "zip"
  BuildSkipValidationFlagName := "skip-validation"
  FlagParsingError := fun err name => errors.Wrap err name
  GetString := fun name => if name = "zip" then (zipPathFile, none) else (packageRootPath, none)
  GetBool := fun _ => (false, none)
  GetStringSlice := fun _ => (conditions, none)
  NewClient := (some (KibanaClient.mk 1), none)
  FindPackageRoot := ("/work/apache", true, none)
  NewForPackage := fun _ => (some (sampleInstaller sampleManifest), none)
  CheckConditions := fun _ _ => none

/-- The sample environment with an evaluator that rejects the assertion. -/
def unmetEnv : Env :=
  { sampleEnv "" "" ["kibana.version=7.17.0"] with
    CheckConditions := fun _ _ => some (GoError.external "conditions not met: kibana.version") }

/-- The sample environment without a reachable Kibana. -/
def noKibanaEnv : Env :=
  { sampleEnv "" "" [] with
    NewClient := (none, some (GoError.external "undefined environment variable: ELASTIC_PACKAGE_KIBANA_HOST")) }

/-- The sample environment started outside any package, where discovery
also reports an error. -/
def lostEnv : Env :=
  { sampleEnv "" "" [] with
    FindPackageRoot := ("", false, some (GoError.external "locating working directory failed")) }

/-- The sample environment with an installer constructor that validates the
package, and rejects it, unless told to skip validation. -/
def validatingEnv : Env :=
  { sampleEnv "apache-1.2.0.zip" "" [] with
    NewForPackage := fun options =>
      if options.SkipValidation then (some (sampleInstaller sampleManifest), none)
      else (none, some (GoError.external "package validation failed")) }

/-- The sample environment with an installer constructor that rejects the
archive `broken.zip` unless told to skip validation, and accepts any other
source; the archive given here is another one. -/
def pickyEnv : Env :=
  { sampleEnv "apache-1.2.0.zip" "" [] with
    NewForPackage := fun options =>
      if options.ZipPath = "broken.zip" ∧ options.SkipValidation = false then
        (none, some (GoError.external "package validation failed"))
      else (some (sampleInstaller sampleManifest), none) }

/-- The sample environment whose installer reports `installed` as installed. -/
def installingEnv (installed : PackageManifest) : Env :=
  { sampleEnv "apache-1.2.0.zip" "" [] with
    NewForPackage := fun _ => (some (sampleInstaller installed), none) }

/-- The sample environment with a manifest that cannot be read. -/
def brokenManifestEnv : Env :=
  { sampleEnv "" "" ["kibana.version=8.9.2"] with
    NewForPackage := fun _ =>
      (some (Installer.mk (none, some (GoError.external "reading manifest failed")) (none, none)), none) }

/-! ## Theorems -/

/-- C1: condition-check-only never installs.  When the steps up to the read
of the check-condition flag succeed, the list read is not empty, the manifest
loads and `packages.CheckConditions` returns nil, then `installer.Install` is
called zero times and the action returns nil. -/
theorem check_conditions_only_never_installs (env : Env) (installer : Installer)
    (keyValuePairs : List String) (manifest : PackageManifest)
    (hsteps : StepsSucceed env installer keyValuePairs)
    (hnonempty : keyValuePairs ≠ [])
    (hmanifest : installer.Manifest = (some manifest, none))
    (hcheck : env.CheckConditions manifest keyValuePairs = none) :
    (installCommandAction env).trace.countP Event.isInstall = 0 ∧
    (installCommandAction env).outcome = Outcome.returned none := by
  obtain ⟨zip, root, skip, client, path, hz, hr, hs, hc, hsrc, hn, hk⟩ := hsteps
  have hlen : 0 < keyValuePairs.length := List.length_pos.mpr hnonempty
  by_cases hboth : zip = "" ∧ root = ""
  · simp only [hboth, and_self, if_true] at hsrc
    obtain ⟨rfl, rfl⟩ := hboth
    simp [installCommandAction, constructAndRun, hz, hr, hs, hc, hsrc, hn, hk, hlen,
      hmanifest, hcheck, Event.isInstall]
  · simp only [hboth, if_false] at hsrc
    subst hsrc
    simp [installCommandAction, constructAndRun, hz, hr, hs, hc, hn, hk, hlen,
      hmanifest, hcheck, Event.isInstall, hboth]

/-- Witness of C1: the sample environment, asked to check one condition. -/
theorem check_conditions_only_never_installs_witness :
    (installCommandAction (sampleEnv "" "" ["kibana.version=8.9.2"])).trace.countP
        Event.isInstall = 0 ∧
    (installCommandAction (sampleEnv "" "" ["kibana.version=8.9.2"])).outcome
      = Outcome.returned none :=
  check_conditions_only_never_installs (sampleEnv "" "" ["kibana.version=8.9.2"])
    (sampleInstaller sampleManifest) ["kibana.version=8.9.2"] sampleManifest
    ⟨"", "", false, some (KibanaClient.mk 1), "/work/apache",
      rfl, rfl, rfl, rfl, by decide, rfl, rfl⟩
    (by decide) rfl rfl

/-- Counterexample to C2 as stated: the evaluator returns the error
`conditions not met: kibana.version`, the action stops right after that call,
and what it returns is not that error. -/
theorem condition_failure_is_not_returned_as_is :
    (installCommandAction unmetEnv).trace.getLast?
      = some (Event.CheckConditions sampleManifest ["kibana.version=7.17.0"]
          (some (GoError.external "conditions not met: kibana.version"))) ∧
    (installCommandAction unmetEnv).outcome
      ≠ Outcome.returned (some (GoError.external "conditions not met: kibana.version")) := by
  decide

/-- C2, amended: failed conditions gate the install.  When
`packages.CheckConditions` is called and returns a failure, the list of
conditions is not empty, `installer.Install` is never called, and the action
returns the evaluator's error wrapped by `errors.Wrap` with the message
`checking conditions failed`. -/
theorem failed_conditions_gate_install (env : Env) (manifest : PackageManifest)
    (keyValuePairs : List String) (failure : GoError)
    (hcheck : Event.CheckConditions manifest keyValuePairs (some failure)
      ∈ (installCommandAction env).trace) :
    keyValuePairs ≠ [] ∧
    (installCommandAction env).trace.countP Event.isInstall = 0 ∧
    (installCommandAction env).outcome
      = Outcome.returned (some (GoError.withMessage failure "checking conditions failed")) := by
  revert hcheck
  unfold installCommandAction constructAndRun
  simp only []
  repeat' split
  all_goals simp_all [Event.isInstall, errors.Wrap, List.length_pos]

/-- Witness of C2, amended: the environment whose evaluator rejects. -/
theorem failed_conditions_gate_install_witness :
    ["kibana.version=7.17.0"] ≠ [] ∧
    (installCommandAction unmetEnv).trace.countP Event.isInstall = 0 ∧
    (installCommandAction unmetEnv).outcome
      = Outcome.returned (some (GoError.withMessage
          (GoError.external "conditions not met: kibana.version")
          "checking conditions failed")) :=
  failed_conditions_gate_install unmetEnv sampleManifest ["kibana.version=7.17.0"]
    (GoError.external "conditions not met: kibana.version") (by decide)

/-- C3: with an empty list of conditions the validation is skipped.  When
the steps up to the read of the check-condition flag succeed and the list
read is empty, `installer.Manifest` and `packages.CheckConditions` are not
called, `installer.Install` is called exactly once, and the action returns
the error (or nil) that `Install` returned. -/
theorem empty_conditions_install_directly (env : Env) (installer : Installer)
    (hsteps : StepsSucceed env installer []) :
    (installCommandAction env).trace.countP Event.isManifest = 0 ∧
    (installCommandAction env).trace.countP Event.isCheckConditions = 0 ∧
    (installCommandAction env).trace.countP Event.isInstall = 1 ∧
    (installCommandAction env).trace.getLast? = some (Event.Install installer.Install) ∧
    (installCommandAction env).outcome = Outcome.returned installer.Install.2 := by
  obtain ⟨zip, root, skip, client, path, hz, hr, hs, hc, hsrc, hn, hk⟩ := hsteps
  by_cases hboth : zip = "" ∧ root = ""
  · simp only [hboth, and_self, if_true] at hsrc
    obtain ⟨rfl, rfl⟩ := hboth
    simp [installCommandAction, constructAndRun, hz, hr, hs, hc, hsrc, hn, hk,
      Event.isInstall, Event.isManifest, Event.isCheckConditions, List.getLast?_cons_cons]
  · simp only [hboth, if_false] at hsrc
    subst hsrc
    simp [installCommandAction, constructAndRun, hz, hr, hs, hc, hn, hk,
      Event.isInstall, Event.isManifest, Event.isCheckConditions, hboth, List.getLast?_cons_cons]

/-- Witness of C3: the sample environment with an archive and no condition. -/
theorem empty_conditions_install_directly_witness :
    (installCommandAction (sampleEnv "apache-1.2.0.zip" "" [])).trace.countP
        Event.isManifest = 0 ∧
    (installCommandAction (sampleEnv "apache-1.2.0.zip" "" [])).trace.countP
        Event.isCheckConditions = 0 ∧
    (installCommandAction (sampleEnv "apache-1.2.0.zip" "" [])).trace.countP
        Event.isInstall = 1 ∧
    (installCommandAction (sampleEnv "apache-1.2.0.zip" "" [])).trace.getLast?
      = some (Event.Install (sampleInstaller sampleManifest).Install) ∧
    (installCommandAction (sampleEnv "apache-1.2.0.zip" "" [])).outcome
      = Outcome.returned (sampleInstaller sampleManifest).Install.2 :=
  empty_conditions_install_directly (sampleEnv "apache-1.2.0.zip" "" [])
    (sampleInstaller sampleManifest)
    ⟨"apache-1.2.0.zip", "", false, some (KibanaClient.mk 1), "",
      rfl, rfl, rfl, rfl, by decide, rfl, rfl⟩

/-- C4: SourceNotFound.  When both path flags are empty and package-root
discovery runs and finds nothing, the action returns the error
`package root not found`, and `installer.NewForPackage`, `installer.Manifest`,
`packages.CheckConditions` and `installer.Install` are not called. -/
theorem source_not_found (env : Env) (path : String) (err : error)
    (hzip : env.GetString env.ZipPackageFilePathFlagName = ("", none))
    (hroot : env.GetString env.PackageRootFlagName = ("", none))
    (hdiscovery : Event.FindPackageRoot (path, false, err) ∈ (installCommandAction env).trace) :
    (installCommandAction env).outcome
      = Outcome.returned (some (GoError.fundamental "package root not found")) ∧
    (installCommandAction env).trace.countP Event.isNewForPackage = 0 ∧
    (installCommandAction env).trace.countP Event.isManifest = 0 ∧
    (installCommandAction env).trace.countP Event.isCheckConditions = 0 ∧
    (installCommandAction env).trace.countP Event.isInstall = 0 := by
  revert hdiscovery
  unfold installCommandAction constructAndRun
  simp only [hzip, hroot]
  repeat' split
  all_goals simp_all [Event.isInstall, Event.isManifest, Event.isCheckConditions,
    Event.isNewForPackage, errors.New]

/-- Witness of C4: the environment started outside any package. -/
theorem source_not_found_witness :
    (installCommandAction lostEnv).outcome
      = Outcome.returned (some (GoError.fundamental "package root not found")) ∧
    (installCommandAction lostEnv).trace.countP Event.isNewForPackage = 0 ∧
    (installCommandAction lostEnv).trace.countP Event.isManifest = 0 ∧
    (installCommandAction lostEnv).trace.countP Event.isCheckConditions = 0 ∧
    (installCommandAction lostEnv).trace.countP Event.isInstall = 0 :=
  source_not_found lostEnv ""
    (some (GoError.external "locating working directory failed")) rfl rfl (by decide)

/-- Counterexample to C5 as stated: both path flags are read as empty, yet
discovery is not attempted, because creating the Kibana client fails first and
the action returns at line 52. -/
theorem discovery_not_attempted_without_client :
    noKibanaEnv.GetString noKibanaEnv.ZipPackageFilePathFlagName = ("", none) ∧
    noKibanaEnv.GetString noKibanaEnv.PackageRootFlagName = ("", none) ∧
    (installCommandAction noKibanaEnv).trace.countP Event.isFindPackageRoot = 0 ∧
    (installCommandAction noKibanaEnv).trace.countP Event.isNewForPackage = 0 := by
  decide

/-- C5, amended: explicit sources are used as given and suppress discovery,
for every invocation that reaches source resolution (the three flags are read
and the Kibana client is created).  If the archive path or the directory path
is not empty, `packages.FindPackageRoot` is not called and
`installer.NewForPackage` is called once, with `ZipPath` the archive path and
`RootPath` the directory path.  Discovery is attempted if and only if both
are empty; then every options value passed to `NewForPackage` has an empty
`ZipPath` and the discovered directory as `RootPath`, and `NewForPackage` is
called with them when discovery reports `found` and no error. -/
theorem explicit_sources_suppress_discovery (env : Env) (zipPathFile packageRootPath : String)
    (skipValidation : Bool) (kibanaClient : Option KibanaClient)
    (hzip : env.GetString env.ZipPackageFilePathFlagName = (zipPathFile, none))
    (hroot : env.GetString env.PackageRootFlagName = (packageRootPath, none))
    (hskip : env.GetBool env.BuildSkipValidationFlagName = (skipValidation, none))
    (hclient : env.NewClient = (kibanaClient, none)) :
    (zipPathFile ≠ "" ∨ packageRootPath ≠ "" →
      (installCommandAction env).trace.countP Event.isFindPackageRoot = 0 ∧
      (installCommandAction env).trace.filter Event.isNewForPackage
        = [Event.NewForPackage
            (Options.mk kibanaClient packageRootPath skipValidation zipPathFile)
            (env.NewForPackage
              (Options.mk kibanaClient packageRootPath skipValidation zipPathFile))]) ∧
    (Event.FindPackageRoot env.FindPackageRoot ∈ (installCommandAction env).trace
      ↔ zipPathFile = "" ∧ packageRootPath = "") ∧
    (zipPathFile = "" ∧ packageRootPath = "" →
      (∀ options ret, Event.NewForPackage options ret ∈ (installCommandAction env).trace →
        options.ZipPath = "" ∧ env.FindPackageRoot = (options.RootPath, true, none)) ∧
      (∀ discovered, env.FindPackageRoot = (discovered, true, none) →
        (installCommandAction env).trace.filter Event.isNewForPackage
          = [Event.NewForPackage (Options.mk kibanaClient discovered skipValidation "")
              (env.NewForPackage (Options.mk kibanaClient discovered skipValidation ""))])) := by
  by_cases hboth : zipPathFile = "" ∧ packageRootPath = ""
  · obtain ⟨rfl, rfl⟩ := hboth
    unfold installCommandAction constructAndRun
    simp only [hzip, hroot, hskip, hclient]
    repeat' split
    all_goals simp_all [Event.isFindPackageRoot, Event.isNewForPackage]
  · unfold installCommandAction constructAndRun
    simp only [hzip, hroot, hskip, hclient]
    repeat' split
    all_goals simp_all [Event.isFindPackageRoot, Event.isNewForPackage]

/-- Witness of C5, amended: the sample environment with an archive path. -/
theorem explicit_sources_suppress_discovery_witness :
    ("apache-1.2.0.zip" ≠ "" ∨ "" ≠ "" →
      (installCommandAction (sampleEnv "apache-1.2.0.zip" "" [])).trace.countP
          Event.isFindPackageRoot = 0 ∧
      (installCommandAction (sampleEnv "apache-1.2.0.zip" "" [])).trace.filter
          Event.isNewForPackage
        = [Event.NewForPackage
            (Options.mk (some (KibanaClient.mk 1)) "" false "apache-1.2.0.zip")
            ((sampleEnv "apache-1.2.0.zip" "" []).NewForPackage
              (Options.mk (some (KibanaClient.mk 1)) "" false "apache-1.2.0.zip"))]) ∧
    (Event.FindPackageRoot (sampleEnv "apache-1.2.0.zip" "" []).FindPackageRoot
        ∈ (installCommandAction (sampleEnv "apache-1.2.0.zip" "" [])).trace
      ↔ "apache-1.2.0.zip" = "" ∧ "" = "") ∧
    ("apache-1.2.0.zip" = "" ∧ "" = "" →
      (∀ options ret, Event.NewForPackage options ret
          ∈ (installCommandAction (sampleEnv "apache-1.2.0.zip" "" [])).trace →
        options.ZipPath = "" ∧
        (sampleEnv "apache-1.2.0.zip" "" []).FindPackageRoot
          = (options.RootPath, true, none)) ∧
      (∀ discovered,
        (sampleEnv "apache-1.2.0.zip" "" []).FindPackageRoot = (discovered, true, none) →
        (installCommandAction (sampleEnv "apache-1.2.0.zip" "" [])).trace.filter
            Event.isNewForPackage
          = [Event.NewForPackage (Options.mk (some (KibanaClient.mk 1)) discovered false "")
              ((sampleEnv "apache-1.2.0.zip" "" []).NewForPackage
                (Options.mk (some (KibanaClient.mk 1)) discovered false ""))])) :=
  explicit_sources_suppress_discovery (sampleEnv "apache-1.2.0.zip" "" [])
    "apache-1.2.0.zip" "" false (some (KibanaClient.mk 1)) rfl rfl rfl rfl

/-- C6: archive precedence.  When both path flags are read as non-empty,
source resolution as the spec describes it returns the Archive variant with
the archive path, whatever the directory path is and whatever discovery would
find, and every options value that `installCommandAction` passes to
`installer.NewForPackage` resolves to that archive. -/
theorem archive_takes_precedence (env : Env) (ancestors : List String)
    (hasManifest : String → Bool) (zipPathFile packageRootPath : String)
    (hzip : env.GetString env.ZipPackageFilePathFlagName = (zipPathFile, none))
    (hroot : env.GetString env.PackageRootFlagName = (packageRootPath, none))
    (harchive : zipPathFile ≠ "") (hdirectory : packageRootPath ≠ "") :
    Resolve ancestors hasManifest zipPathFile packageRootPath
      = Except.ok (InstallSource.Archive zipPathFile) ∧
    (∀ otherDirectory,
      Resolve ancestors hasManifest zipPathFile otherDirectory
        = Resolve ancestors hasManifest zipPathFile packageRootPath) ∧
    (∀ options ret, Event.NewForPackage options ret ∈ (installCommandAction env).trace →
      options.ZipPath = zipPathFile ∧ options.RootPath = packageRootPath ∧
      Resolve ancestors hasManifest options.ZipPath options.RootPath
        = Except.ok (InstallSource.Archive zipPathFile)) := by
  have _ := hdirectory
  refine ⟨by simp [Resolve, harchive], fun other => by simp [Resolve, harchive], ?_⟩
  unfold installCommandAction constructAndRun
  simp only [hzip, hroot]
  repeat' split
  all_goals simp_all [Resolve]

/-- Witness of C6: the sample environment with both an archive and a
directory. -/
theorem archive_takes_precedence_witness :
    Resolve ["/work/apache", "/work", "/"] (fun directory => directory == "/work/apache")
        "apache-1.2.0.zip" "/src/nginx"
      = Except.ok (InstallSource.Archive "apache-1.2.0.zip") ∧
    (∀ otherDirectory,
      Resolve ["/work/apache", "/work", "/"] (fun directory => directory == "/work/apache")
          "apache-1.2.0.zip" otherDirectory
        = Resolve ["/work/apache", "/work", "/"] (fun directory => directory == "/work/apache")
          "apache-1.2.0.zip" "/src/nginx") ∧
    (∀ options ret, Event.NewForPackage options ret
        ∈ (installCommandAction (sampleEnv "apache-1.2.0.zip" "/src/nginx" [])).trace →
      options.ZipPath = "apache-1.2.0.zip" ∧ options.RootPath = "/src/nginx" ∧
      Resolve ["/work/apache", "/work", "/"] (fun directory => directory == "/work/apache")
          options.ZipPath options.RootPath
        = Except.ok (InstallSource.Archive "apache-1.2.0.zip")) :=
  archive_takes_precedence (sampleEnv "apache-1.2.0.zip" "/src/nginx" [])
    ["/work/apache", "/work", "/"] (fun directory => directory == "/work/apache")
    "apache-1.2.0.zip" "/src/nginx" rfl rfl (by decide) (by decide)

/-- Counterexample to C7 as stated: two invocations that differ only in the
skip-validation flag, in an environment whose installer constructor rejects
the package unless validation is skipped.  Without the flag the action stops
at `installer.NewForPackage`; with it the action goes on to call
`installer.Install`. -/
theorem skip_validation_changes_the_calls :
    (installCommandAction validatingEnv).trace.countP Event.isInstall = 0 ∧
    (installCommandAction (withSkipValidation validatingEnv true)).trace.countP
      Event.isInstall = 1 ∧
    (installCommandAction (withSkipValidation validatingEnv true)).trace.map Event.call
      ≠ (installCommandAction validatingEnv).trace.map Event.call := by
  decide

/-- A call of `installer.NewForPackage` logged by lines 67-100 was either in
the log already or carries the given skip-validation value. -/
theorem constructAndRun_options (env : Env) (kibanaClient : Option KibanaClient)
    (packageRootPath : String) (skipValidation : Bool) (zipPathFile : String)
    (t : List Event) (options : Options) (ret : Option Installer × error)
    (hcall : Event.NewForPackage options ret
      ∈ (constructAndRun env kibanaClient packageRootPath skipValidation zipPathFile t).trace) :
    Event.NewForPackage options ret ∈ t ∨ options.SkipValidation = skipValidation := by
  revert hcall
  unfold constructAndRun
  simp only []
  repeat' split
  all_goals simp_all
  all_goals
    rintro (hmem | ⟨rfl, -⟩)
    · exact Or.inl hmem
    · exact Or.inr rfl

/-- Lines 67-100 always log the call of `installer.NewForPackage` with the
options built from their arguments, and with what it returned. -/
theorem constructAndRun_calls (env : Env) (kibanaClient : Option KibanaClient)
    (packageRootPath : String) (skipValidation : Bool) (zipPathFile : String)
    (t : List Event) :
    Event.NewForPackage (Options.mk kibanaClient packageRootPath skipValidation zipPathFile)
        (env.NewForPackage
          (Options.mk kibanaClient packageRootPath skipValidation zipPathFile))
      ∈ (constructAndRun env kibanaClient packageRootPath skipValidation zipPathFile t).trace := by
  unfold constructAndRun
  simp only []
  repeat' split
  all_goals simp_all

/-- Lines 67-100 make the same calls and end the same way under either value
of the flag, when `installer.NewForPackage` answers the two options values
alike and the logs so far hold the same calls. -/
theorem constructAndRun_same (env : Env) (kibanaClient : Option KibanaClient)
    (packageRootPath : String) (skipValidation other : Bool) (zipPathFile : String)
    (t tOther : List Event) (hlog : tOther.map Event.call = t.map Event.call)
    (hsame : env.NewForPackage (Options.mk kibanaClient packageRootPath other zipPathFile)
      = env.NewForPackage (Options.mk kibanaClient packageRootPath skipValidation zipPathFile)) :
    (constructAndRun (withSkipValidation env other) kibanaClient packageRootPath other
        zipPathFile tOther).trace.map Event.call
      = (constructAndRun env kibanaClient packageRootPath skipValidation
        zipPathFile t).trace.map Event.call ∧
    (constructAndRun (withSkipValidation env other) kibanaClient packageRootPath other
        zipPathFile tOther).outcome
      = (constructAndRun env kibanaClient packageRootPath skipValidation
        zipPathFile t).outcome := by
  unfold constructAndRun withSkipValidation
  simp only [hsame]
  repeat' split
  all_goals simp_all [Event.call]

/-- C7, amended: skipValidation is a pure pass-through.  Every options value
passed to `installer.NewForPackage` carries the value of the skip-validation
flag in `SkipValidation`; and when `NewForPackage` gives, for the options of
this invocation with the other value of the flag, the same result as it gave
to this invocation, the invocation that differs only in that flag makes the
same calls in the same order with the same arguments apart from that field,
and has the same outcome. -/
theorem skip_validation_pass_through (env : Env) (skipValidation other : Bool)
    (hskip : env.GetBool env.BuildSkipValidationFlagName = (skipValidation, none))
    (hsame : ∀ options ret,
      Event.NewForPackage options ret ∈ (installCommandAction env).trace →
      env.NewForPackage (Options.mk options.Kibana options.RootPath other options.ZipPath)
        = ret) :
    (∀ options ret, Event.NewForPackage options ret ∈ (installCommandAction env).trace →
      options.SkipValidation = skipValidation) ∧
    (∀ options ret,
      Event.NewForPackage options ret
        ∈ (installCommandAction (withSkipValidation env other)).trace →
      options.SkipValidation = other) ∧
    (installCommandAction (withSkipValidation env other)).trace.map Event.call
      = (installCommandAction env).trace.map Event.call ∧
    (installCommandAction (withSkipValidation env other)).outcome
      = (installCommandAction env).outcome := by
  have hother : (withSkipValidation env other).GetBool
      (withSkipValidation env other).BuildSkipValidationFlagName = (other, none) := by
    simp [withSkipValidation]
  have hS : (withSkipValidation env other).GetString = env.GetString := rfl
  have hZ : (withSkipValidation env other).ZipPackageFilePathFlagName
      = env.ZipPackageFilePathFlagName := rfl
  have hR : (withSkipValidation env other).PackageRootFlagName = env.PackageRootFlagName := rfl
  have hB : (withSkipValidation env other).BuildSkipValidationFlagName
      = env.BuildSkipValidationFlagName := rfl
  have hC : (withSkipValidation env other).NewClient = env.NewClient := rfl
  have hF : (withSkipValidation env other).FindPackageRoot = env.FindPackageRoot := rfl
  have hP : (withSkipValidation env other).FlagParsingError = env.FlagParsingError := rfl
  rw [hB] at hother
  unfold installCommandAction at hsame ⊢
  simp only [hS, hZ, hR, hB, hC, hF, hP, hother, hskip] at hsame ⊢
  rcases hz : env.GetString env.ZipPackageFilePathFlagName with ⟨zip, _ | ez⟩
  swap
  · simp [hz]
  rcases hr : env.GetString env.PackageRootFlagName with ⟨root, _ | er⟩
  swap
  · simp [hz, hr]
  rcases hc : env.NewClient with ⟨client, _ | ec⟩
  swap
  · simp [hz, hr, hc, Event.call]
  simp only [hz, hr, hc] at hsame ⊢
  by_cases hboth : zip = "" ∧ root = ""
  · simp only [hboth, and_self, if_true] at hsame ⊢
    rcases hd : env.FindPackageRoot with ⟨path, _ | _, _ | ed⟩
    · simp [hd, Event.call]
    · simp [hd, Event.call]
    · simp only [hd] at hsame ⊢
      refine ⟨fun options ret hcall => ?_, fun options ret hcall => ?_, ?_⟩
      · rcases constructAndRun_options _ _ _ _ _ _ _ _ hcall with hmem | hval
        · simp at hmem
        · exact hval
      · rcases constructAndRun_options _ _ _ _ _ _ _ _ hcall with hmem | hval
        · simp at hmem
        · exact hval
      · exact constructAndRun_same env client path skipValidation other "" _ _
          (by simp [Event.call]) (hsame _ _ (constructAndRun_calls _ _ _ _ _ _))
    · simp [hd, Event.call]
  · simp only [hboth, if_false] at hsame ⊢
    refine ⟨fun options ret hcall => ?_, fun options ret hcall => ?_, ?_⟩
    · rcases constructAndRun_options _ _ _ _ _ _ _ _ hcall with hmem | hval
      · simp at hmem
      · exact hval
    · rcases constructAndRun_options _ _ _ _ _ _ _ _ hcall with hmem | hval
      · simp at hmem
      · exact hval
    · exact constructAndRun_same env client root skipValidation other zip _ _
        (by simp [Event.call]) (hsame _ _ (constructAndRun_calls _ _ _ _ _ _))

/-- Witness of C7, amended: an environment whose installer constructor does
look at the flag, but only for another archive than the one installed. -/
theorem skip_validation_pass_through_witness :
    (∀ options ret, Event.NewForPackage options ret
        ∈ (installCommandAction pickyEnv).trace →
      options.SkipValidation = false) ∧
    (∀ options ret,
      Event.NewForPackage options ret
        ∈ (installCommandAction (withSkipValidation pickyEnv true)).trace →
      options.SkipValidation = true) ∧
    (installCommandAction (withSkipValidation pickyEnv true)).trace.map Event.call
      = (installCommandAction pickyEnv).trace.map Event.call ∧
    (installCommandAction (withSkipValidation pickyEnv true)).outcome
      = (installCommandAction pickyEnv).outcome :=
  skip_validation_pass_through pickyEnv false true rfl
    (fun options ret hcall => by
      have hlogged : Event.NewForPackage options ret
          ∈ (installCommandAction pickyEnv).trace.filter Event.isNewForPackage :=
        List.mem_filter.mpr ⟨hcall, rfl⟩
      have hfilter : (installCommandAction pickyEnv).trace.filter Event.isNewForPackage
          = [Event.NewForPackage
              (Options.mk (some (KibanaClient.mk 1)) "" false "apache-1.2.0.zip")
              (some (sampleInstaller sampleManifest), none)] := by decide
      rw [hfilter] at hlogged
      simp only [List.mem_singleton, Event.NewForPackage.injEq] at hlogged
      obtain ⟨rfl, rfl⟩ := hlogged
      decide)

/-- Counterexample to C8 as stated: two invocations whose installs succeed and
install different manifests print and return exactly the same, so what the
caller gets does not carry the manifest. -/
theorem install_result_is_not_reported :
    (installCommandAction (installingEnv sampleManifest)).trace.getLast?
      = some (Event.Install (some (InstalledPackage.mk sampleManifest), none)) ∧
    (installCommandAction (installingEnv otherManifest)).trace.getLast?
      = some (Event.Install (some (InstalledPackage.mk otherManifest), none)) ∧
    sampleManifest ≠ otherManifest ∧
    (installCommandAction (installingEnv sampleManifest)).reported
      = (installCommandAction (installingEnv otherManifest)).reported := by
  decide

/-- C8, amended: when installation succeeds (the steps up to the read of the
check-condition flag succeed, no condition is given, `installer.Install`
returns a nil error), the action returns nil and prints nothing; the installed
package that `Install` returns is discarded. -/
theorem install_success_returns_nil_only (env : Env) (installer : Installer)
    (installed : Option InstalledPackage)
    (hsteps : StepsSucceed env installer [])
    (hinstall : installer.Install = (installed, none)) :
    (installCommandAction env).trace.getLast? = some (Event.Install (installed, none)) ∧
    (installCommandAction env).reported = ([], Outcome.returned none) := by
  obtain ⟨zip, root, skip, client, path, hz, hr, hs, hc, hsrc, hn, hk⟩ := hsteps
  by_cases hboth : zip = "" ∧ root = ""
  · simp only [hboth, and_self, if_true] at hsrc
    obtain ⟨rfl, rfl⟩ := hboth
    simp [installCommandAction, constructAndRun, hz, hr, hs, hc, hsrc, hn, hk, hinstall,
      Result.reported, Event.printed, List.getLast?_cons_cons]
  · simp only [hboth, if_false] at hsrc
    subst hsrc
    simp [installCommandAction, constructAndRun, hz, hr, hs, hc, hn, hk, hinstall,
      Result.reported, Event.printed, hboth, List.getLast?_cons_cons]

/-- Witness of C8, amended: the sample environment installing the sample
manifest from an archive. -/
theorem install_success_returns_nil_only_witness :
    (installCommandAction (installingEnv sampleManifest)).trace.getLast?
      = some (Event.Install (some (InstalledPackage.mk sampleManifest), none)) ∧
    (installCommandAction (installingEnv sampleManifest)).reported
      = ([], Outcome.returned none) :=
  install_success_returns_nil_only (installingEnv sampleManifest)
    (sampleInstaller sampleManifest) (some (InstalledPackage.mk sampleManifest))
    ⟨"apache-1.2.0.zip", "", false, some (KibanaClient.mk 1), "",
      rfl, rfl, rfl, rfl, by decide, rfl, rfl⟩
    rfl

/-- In a list whose entries before the last did not fail, nothing follows an
entry that failed. -/
theorem nothing_follows_failure {log : List Event}
    (hquiet : ∀ ev ∈ log.dropLast, ev.failed = false)
    (before : List Event) (ev : Event) (later : List Event)
    (hlog : log = before ++ ev :: later) (hfailed : ev.failed = true) : later = [] := by
  by_contra hne
  have hmem : ev ∈ log.dropLast := by
    rw [hlog, List.dropLast_append_cons, List.dropLast_cons_of_ne_nil hne]
    simp
  rw [hquiet ev hmem] at hfailed
  exact Bool.false_ne_true hfailed

/-- Every entry of the call log before the last one records a step that
succeeded. -/
theorem steps_before_last_succeed (env : Env) :
    ∀ ev ∈ (installCommandAction env).trace.dropLast, ev.failed = false := by
  unfold installCommandAction constructAndRun
  simp only []
  repeat' split
  all_goals simp_all [Event.failed]

/-- When a logged step failed, the action returns a non-nil error, provided
`cobraext.FlagParsingError` does. -/
theorem failed_step_returns_error (env : Env)
    (hflag : ∀ cause name, env.FlagParsingError (some cause) name ≠ none) :
    ∀ ev ∈ (installCommandAction env).trace, ev.failed = true →
      ∃ err, (installCommandAction env).outcome = Outcome.returned (some err) := by
  unfold installCommandAction constructAndRun
  simp only []
  repeat' split
  all_goals simp_all [Event.failed, errors.Wrap, errors.New, Option.ne_none_iff_exists']
  all_goals exact fun hsome => Option.isSome_iff_exists.mp hsome

/-- A failed manifest load is returned unchanged, and neither
`packages.CheckConditions` nor `installer.Install` is called. -/
theorem manifest_failure_returned_unchanged (env : Env) (manifest : Option PackageManifest)
    (failure : GoError)
    (hload : Event.Manifest (manifest, some failure) ∈ (installCommandAction env).trace) :
    (installCommandAction env).outcome = Outcome.returned (some failure) ∧
    (installCommandAction env).trace.countP Event.isCheckConditions = 0 ∧
    (installCommandAction env).trace.countP Event.isInstall = 0 := by
  revert hload
  unfold installCommandAction constructAndRun
  simp only []
  repeat' split
  all_goals simp_all [Event.isCheckConditions, Event.isInstall]

/-- C9: failure is terminal.  Given that `cobraext.FlagParsingError` turns an
error into an error, in every invocation a step that reports a failure is the
last entry of the call log (no later step is invoked) and the action returns a
non-nil error; and when `installer.Manifest` fails, its error is returned
unchanged and neither `packages.CheckConditions` nor `installer.Install` is
called. -/
theorem failure_is_terminal (env : Env)
    (hflag : ∀ cause name, env.FlagParsingError (some cause) name ≠ none) :
    (∀ before ev later, (installCommandAction env).trace = before ++ ev :: later →
      ev.failed = true →
      later = [] ∧
      ∃ err, (installCommandAction env).outcome = Outcome.returned (some err)) ∧
    (∀ manifest failure,
      Event.Manifest (manifest, some failure) ∈ (installCommandAction env).trace →
      (installCommandAction env).outcome = Outcome.returned (some failure) ∧
      (installCommandAction env).trace.countP Event.isCheckConditions = 0 ∧
      (installCommandAction env).trace.countP Event.isInstall = 0) := by
  refine ⟨fun before ev later hlog hfailed => ⟨?_, ?_⟩, fun manifest failure hload => ?_⟩
  · exact nothing_follows_failure (steps_before_last_succeed env) before ev later hlog hfailed
  · exact failed_step_returns_error env hflag ev (by simp [hlog]) hfailed
  · exact manifest_failure_returned_unchanged env manifest failure hload

/-- Witness of C9: in the environment whose manifest cannot be read, the
failed `installer.Manifest` call is the last entry of the call log and the
action returns a non-nil error. -/
theorem failure_is_terminal_witness :
    (installCommandAction brokenManifestEnv).trace
      = (installCommandAction brokenManifestEnv).trace.dropLast
        ++ Event.Manifest (none, some (GoError.external "reading manifest failed")) :: [] ∧
    (Event.Manifest (none, some (GoError.external "reading manifest failed"))).failed = true ∧
    ([] : List Event) = [] ∧
    ∃ err, (installCommandAction brokenManifestEnv).outcome = Outcome.returned (some err) :=
  ⟨by decide, rfl,
    (failure_is_terminal brokenManifestEnv
      (fun cause name => by simp [brokenManifestEnv, sampleEnv, errors.Wrap])).1
      (installCommandAction brokenManifestEnv).trace.dropLast
      (Event.Manifest (none, some (GoError.external "reading manifest failed"))) []
      (by decide) rfl⟩

/-- C10: discovery errors are masked by the not-found check.  When
`packages.FindPackageRoot` is called (both path flags are empty) and returns
`found = false`, the action returns the plain `package root not found` error
and prints nothing, whatever error discovery returned with it; and the action
stops at discovery with the `locating package root failed` wrapping of an
error exactly when discovery returned `found = true` together with that
error. -/
theorem discovery_error_masked (env : Env) (path : String) (found : Bool) (err : error)
    (hdiscovery : Event.FindPackageRoot (path, found, err) ∈ (installCommandAction env).trace) :
    env.GetString env.ZipPackageFilePathFlagName = ("", none) ∧
    env.GetString env.PackageRootFlagName = ("", none) ∧
    (found = false →
      (installCommandAction env).reported
        = ([], Outcome.returned (some (GoError.fundamental "package root not found")))) ∧
    (∀ cause,
      ((installCommandAction env).trace.getLast? = some (Event.FindPackageRoot (path, found, err)) ∧
        (installCommandAction env).outcome
          = Outcome.returned (some (GoError.withMessage cause "locating package root failed")))
      ↔ (found = true ∧ err = some cause)) := by
  revert hdiscovery
  unfold installCommandAction constructAndRun
  simp only []
  repeat' split
  all_goals simp_all [errors.New, errors.Wrap, List.getLast?_cons_cons, Result.reported,
    Event.printed]

/-- Witness of C10: the environment started outside any package, where
discovery reports an error that the action drops. -/
theorem discovery_error_masked_witness :
    lostEnv.GetString lostEnv.ZipPackageFilePathFlagName = ("", none) ∧
    lostEnv.GetString lostEnv.PackageRootFlagName = ("", none) ∧
    (false = false →
      (installCommandAction lostEnv).reported
        = ([], Outcome.returned (some (GoError.fundamental "package root not found")))) ∧
    (∀ cause,
      ((installCommandAction lostEnv).trace.getLast?
          = some (Event.FindPackageRoot
              ("", false, some (GoError.external "locating working directory failed"))) ∧
        (installCommandAction lostEnv).outcome
          = Outcome.returned (some (GoError.withMessage cause "locating package root failed")))
      ↔ (false = true ∧ some (GoError.external "locating working directory failed") = some cause)) :=
  discovery_error_masked lostEnv "" false
    (some (GoError.external "locating working directory failed")) (by decide)

end Cmd
